import Mathlib

/-!
Shallow embedding of the Go package `localaddr` (file `localaddr.go`) and of
the pieces of the Go `net` library its one function `Get` relies on
(`net.IP.To4`, `net.IP.IsLoopback`, `net.IP.Equal`, `net.IP.String` on the
4-byte values `Get` hands to it), together with proofs about `Get`.

The ambient operating-system network state that `Get` queries is made
explicit as input: a `NetState` records the outcome of `net.Interfaces()`,
and each interface records the outcome its `Addrs()` call would produce.
A Go `error` value is modelled by `GoError`: either an opaque error coming
from the OS / runtime layer, or one built with `fmt.Errorf`.
-/

set_option autoImplicit false

namespace Localaddr

/-- A Go `byte`. -/
abbrev Byte := Fin 256

/-- Go `net.IP`: a byte slice (4-byte or 16-byte address; other lengths are
possible values of the type). -/
abbrev IP := List Byte

/-- Go `net.FlagUp` (bit 1 << 0 of `net.Flags`). -/
def flagUp : Nat := 1

/-- Go `net.FlagLoopback` (bit 1 << 2 of `net.Flags`). -/
def flagLoopback : Nat := 4

/-- Go `isZeros` from the net package: every byte of the slice is zero. -/
def isZeros (p : IP) : Bool := p.all fun b => b == 0

/-- Go `net.IP.To4`: a 4-byte address is returned unchanged; a 16-byte
IPv4-in-IPv6 address (ten zero bytes then 0xff, 0xff) is narrowed to its
last four bytes; anything else yields nil (here `none`). -/
def to4 (ip : IP) : Option IP :=
  if ip.length = 4 then some ip
  else if ip.length = 16 ∧ isZeros (ip.take 10) = true
          ∧ ip[10]? = some 255 ∧ ip[11]? = some 255 then
    some (ip.drop 12)
  else none

/-- Go `net.IPv6loopback`, the 16-byte address ::1. -/
def iPv6loopback : IP := [0,0,0,0,0,0,0,0,0,0,0,0,0,0,0,1]

/-- Go `net.IP.Equal`: byte equality at equal lengths, and a 4-byte address
equals the 16-byte IPv4-in-IPv6 form carrying the same last four bytes. -/
def ipEqual (ip x : IP) : Bool :=
  if ip.length = x.length then ip == x
  else if ip.length = 4 ∧ x.length = 16 then
    isZeros (x.take 10) && (x[10]? == some 255) && (x[11]? == some 255)
      && (ip == x.drop 12)
  else if ip.length = 16 ∧ x.length = 4 then
    isZeros (ip.take 10) && (ip[10]? == some 255) && (ip[11]? == some 255)
      && (ip.drop 12 == x)
  else false

/-- Go `net.IP.IsLoopback`: when the address has a 4-byte form, its first
byte is 127; otherwise it must equal `net.IPv6loopback`. (When `to4`
succeeds the result has length 4, so `headD` reads its first byte.) -/
def isLoopback (ip : IP) : Bool :=
  match to4 ip with
  | some ip4 => ip4.headD 0 == 127
  | none => ipEqual ip iPv6loopback

/-- Go `net.IP.String` evaluated at a 4-byte IP, the only shape `Get` hands
to it (`Get` calls `String` only on a non-nil `To4` result): the four bytes
in decimal, appended left to right with a period after each of the first
three, exactly as the ubtoa loop of the net package builds the buffer.
Shapes other than four bytes never reach this function from `Get`. -/
def ip4String : IP → String
  | [b0, b1, b2, b3] =>
    toString b0.val ++ "." ++ toString b1.val ++ "." ++
      toString b2.val ++ "." ++ toString b3.val
  | _ => ""

/-- A Go `error` value as `Get` can observe it: an opaque error produced by
the OS / net runtime layer, or an error created by `fmt.Errorf`. Distinct
constructors keep OS-layer errors distinguishable from the message the
resolver itself builds. -/
inductive GoError where
  | os (id : Nat) (msg : String)
  | errorf (msg : String)
deriving DecidableEq, Repr

/-- A Go `net.Addr` as the type switch in `Get` sees it: a `*net.IPNet`
(address plus network mask), a `*net.IPAddr` (bare address plus zone), or
any other implementation of the `net.Addr` interface, which the switch
leaves untouched. The IP field of either struct may itself be nil. -/
inductive NetAddr where
  | ipnet (ip : Option IP) (mask : List Byte)
  | ipaddr (ip : Option IP) (zone : String)
  | other
deriving DecidableEq, Repr

/-- The type switch of `Get` (localaddr.go lines 37–43): `var ip net.IP`
stays nil unless the address is a `*net.IPNet` or a `*net.IPAddr`, in which
case its IP field is taken. -/
def NetAddr.extractIP : NetAddr → Option IP
  | .ipnet ip _ => ip
  | .ipaddr ip _ => ip
  | .other => none

/-- A Go `net.Interface` together with the outcome its `Addrs()` call would
produce — the per-interface part of the ambient OS state `Get` reads.
Fields of `net.Interface` that `Get` never reads (Index, MTU,
HardwareAddr) are omitted; `name` is kept for identification. -/
structure Iface where
  name : String
  flags : Nat
  addrs : Except GoError (List NetAddr)
deriving Repr

/-- The ambient OS network state `Get` queries: the outcome of
`net.Interfaces()`. -/
structure NetState where
  interfaces : Except GoError (List Iface)

/-- The error built by `fmt.Errorf` at localaddr.go line 54. -/
def noAddressFoundError : GoError := .errorf "not connected to the network"

/-- The inner loop of `Get` (localaddr.go lines 36–52): scan the address
list of one interface, skipping addresses whose extracted IP is nil or
loopback or has no 4-byte form, and return the first surviving 4-byte IP. -/
def scanAddrs : List NetAddr → Option IP
  | [] => none
  | addr :: rest =>
    match addr.extractIP with
    | none => scanAddrs rest
    | some ip =>
      if isLoopback ip then scanAddrs rest
      else
        match to4 ip with
        | none => scanAddrs rest
        | some ip4 => some ip4

/-- The outer loop of `Get` (localaddr.go lines 25–53) together with the
final fallthrough (line 54): the (string, error) pair produced once
`net.Interfaces()` has succeeded with the given list. -/
def scanIfaces : List Iface → String × Option GoError
  | [] => ("", some noAddressFoundError)
  | v :: rest =>
    if Nat.land v.flags flagUp = 0 then scanIfaces rest
    else if Nat.land v.flags flagLoopback ≠ 0 then scanIfaces rest
    else
      match v.addrs with
      | .error e => ("", some e)
      | .ok addrs =>
        match scanAddrs addrs with
        | some ip4 => (ip4String ip4, none)
        | none => scanIfaces rest

/-- `Get` (localaddr.go lines 20–55), with the ambient OS state explicit.
The Go pair (string, error) becomes `String × Option GoError`; `nil` error
is `none`. -/
def Get (s : NetState) : String × Option GoError :=
  match s.interfaces with
  | .error e => ("", some e)
  | .ok ifs => scanIfaces ifs

/-- An interface passes the flag filters of `Get`: its up bit is set and
its loopback bit is clear. -/
def ifaceEligible (v : Iface) : Bool :=
  decide (Nat.land v.flags flagUp ≠ 0) && decide (Nat.land v.flags flagLoopback = 0)

/-- An address survives the per-address filters of `Get`: it carries a
non-nil IP that is not loopback and has a 4-byte form. -/
def addrQualifies (a : NetAddr) : Bool :=
  match a.extractIP with
  | none => false
  | some ip => !isLoopback ip && (to4 ip).isSome

/-- An interface contributes nothing to the scan: it is filtered out by its
flags, or its address list is available and holds no qualifying address. -/
def ifaceYieldsNothing (v : Iface) : Bool :=
  !ifaceEligible v ||
    (match v.addrs with
     | .ok addrs => addrs.all fun a => !addrQualifies a
     | .error _ => false)

/-! ### Unfolding equations for the two loops -/

theorem scanAddrs_nil : scanAddrs [] = none := rfl

theorem scanAddrs_cons (a : NetAddr) (rest : List NetAddr) :
    scanAddrs (a :: rest) =
      match a.extractIP with
      | none => scanAddrs rest
      | some ip =>
        if isLoopback ip then scanAddrs rest
        else
          match to4 ip with
          | none => scanAddrs rest
          | some ip4 => some ip4 := rfl

theorem scanIfaces_nil : scanIfaces [] = ("", some noAddressFoundError) := rfl

theorem scanIfaces_cons (v : Iface) (rest : List Iface) :
    scanIfaces (v :: rest) =
      if Nat.land v.flags flagUp = 0 then scanIfaces rest
      else if Nat.land v.flags flagLoopback ≠ 0 then scanIfaces rest
      else
        match v.addrs with
        | .error e => ("", some e)
        | .ok addrs =>
          match scanAddrs addrs with
          | some ip4 => (ip4String ip4, none)
          | none => scanIfaces rest := rfl

/-! ### Lemmas about the inner loop -/

/-- An address that fails a filter is skipped: the scan of the rest is
unchanged. -/
theorem scanAddrs_cons_of_skip (a : NetAddr) (rest : List NetAddr)
    (h : addrQualifies a = false) : scanAddrs (a :: rest) = scanAddrs rest := by
  rw [scanAddrs_cons]
  unfold addrQualifies at h
  cases hext : a.extractIP with
  | none => simp
  | some ip =>
    rw [hext] at h
    by_cases hlb : isLoopback ip
    · simp [hlb]
    · cases h4 : to4 ip with
      | none => simp [hlb, h4]
      | some ip4 => simp [hlb, h4] at h

/-- The scan of a list all of whose addresses fail a filter is empty. -/
theorem scanAddrs_eq_none_of_all (as : List NetAddr)
    (h : ∀ a ∈ as, addrQualifies a = false) : scanAddrs as = none := by
  induction as with
  | nil => rfl
  | cons a rest ih =>
    rw [scanAddrs_cons_of_skip a rest (h a (List.mem_cons_self a rest))]
    exact ih fun x hx => h x (List.mem_cons_of_mem a hx)

/-- Replacing the tail below an address by one with the same scan result
leaves the scan result unchanged. -/
theorem scanAddrs_cons_congr (a : NetAddr) (l₁ l₂ : List NetAddr)
    (h : scanAddrs l₁ = scanAddrs l₂) :
    scanAddrs (a :: l₁) = scanAddrs (a :: l₂) := by
  rw [scanAddrs_cons, scanAddrs_cons]
  cases hext : a.extractIP with
  | none => simpa
  | some ip =>
    by_cases hlb : isLoopback ip
    · simpa [hlb]
    · cases h4 : to4 ip with
      | none => simpa [hlb, h4]
      | some ip4 => simp [hlb, h4]

/-- A prefix that yields nothing is scanned through. -/
theorem scanAddrs_append_of_none (xs ys : List NetAddr)
    (h : scanAddrs xs = none) : scanAddrs (xs ++ ys) = scanAddrs ys := by
  induction xs with
  | nil => simp
  | cons a rest ih =>
    rw [scanAddrs_cons] at h
    rw [List.cons_append, scanAddrs_cons]
    cases hext : a.extractIP with
    | none =>
      rw [hext] at h
      simpa using ih h
    | some ip =>
      rw [hext] at h
      by_cases hlb : isLoopback ip
      · simp only [hlb, if_true] at h ⊢
        exact ih h
      · simp only [hlb, if_false] at h ⊢
        cases h4 : to4 ip with
        | none =>
          rw [h4] at h
          simpa using ih h
        | some ip4 => rw [h4] at h; simp at h

/-- A successful inner scan exhibits an address of the list whose extracted
IP survives every filter and narrows to the returned 4-byte value. -/
theorem scanAddrs_some_exists (as : List NetAddr) (ip4 : IP)
    (h : scanAddrs as = some ip4) :
    ∃ a ∈ as, ∃ ip, a.extractIP = some ip ∧ isLoopback ip = false ∧
      to4 ip = some ip4 := by
  induction as with
  | nil => simp [scanAddrs_nil] at h
  | cons a rest ih =>
    rw [scanAddrs_cons] at h
    cases hext : a.extractIP with
    | none =>
      simp only [hext] at h
      obtain ⟨b, hb, hrest⟩ := ih h
      exact ⟨b, List.mem_cons_of_mem a hb, hrest⟩
    | some ip =>
      simp only [hext] at h
      by_cases hlb : isLoopback ip
      · rw [if_pos hlb] at h
        obtain ⟨b, hb, hrest⟩ := ih h
        exact ⟨b, List.mem_cons_of_mem a hb, hrest⟩
      · rw [if_neg hlb] at h
        cases h4 : to4 ip with
        | none =>
          simp only [h4] at h
          obtain ⟨b, hb, hrest⟩ := ih h
          exact ⟨b, List.mem_cons_of_mem a hb, hrest⟩
        | some ip4h =>
          simp only [h4, Option.some.injEq] at h
          exact ⟨a, List.mem_cons_self a rest, ip, hext, Bool.eq_false_iff.mpr hlb,
            by rw [h4, h]⟩

/-- A narrowed IPv4 value has exactly four bytes. -/
theorem to4_length (ip ip4 : IP) (h : to4 ip = some ip4) : ip4.length = 4 := by
  unfold to4 at h
  by_cases h4 : ip.length = 4
  · rw [if_pos h4, Option.some.injEq] at h
    rw [← h]; exact h4
  · rw [if_neg h4] at h
    by_cases h16 : ip.length = 16 ∧ isZeros (ip.take 10) = true
        ∧ ip[10]? = some 255 ∧ ip[11]? = some 255
    · rw [if_pos h16, Option.some.injEq] at h
      rw [← h, List.length_drop, h16.1]
    · rw [if_neg h16] at h
      exact absurd h (by simp)

/-! ### Lemmas about the outer loop -/

/-- An interface that yields nothing is passed over: the scan of the rest
is unchanged. -/
theorem scanIfaces_cons_of_nothing (v : Iface) (rest : List Iface)
    (h : ifaceYieldsNothing v = true) :
    scanIfaces (v :: rest) = scanIfaces rest := by
  rw [scanIfaces_cons]
  by_cases hup : Nat.land v.flags flagUp = 0
  · simp [hup]
  · rw [if_neg hup]
    by_cases hlb : Nat.land v.flags flagLoopback ≠ 0
    · simp [hlb]
    · rw [if_neg hlb]
      have helig : ifaceEligible v = true := by
        unfold ifaceEligible
        rw [decide_eq_true hup, decide_eq_true (not_not.mp hlb)]
        rfl
      unfold ifaceYieldsNothing at h
      rw [helig] at h
      simp only [Bool.not_true, Bool.false_or] at h
      cases haddrs : v.addrs with
      | error e =>
        simp only [haddrs] at h
        exact Bool.noConfusion h
      | ok addrs =>
        simp only [haddrs] at h
        have hall : ∀ a ∈ addrs, addrQualifies a = false := by
          intro a ha
          have := List.all_eq_true.mp h a ha
          simpa using this
        simp only [scanAddrs_eq_none_of_all addrs hall]

/-- Replacing the tail below an interface by one with the same scan result
leaves the scan result unchanged. -/
theorem scanIfaces_cons_congr (v : Iface) (l₁ l₂ : List Iface)
    (h : scanIfaces l₁ = scanIfaces l₂) :
    scanIfaces (v :: l₁) = scanIfaces (v :: l₂) := by
  rw [scanIfaces_cons, scanIfaces_cons]
  by_cases hup : Nat.land v.flags flagUp = 0
  · simpa [hup]
  · rw [if_neg hup, if_neg hup]
    by_cases hlb : Nat.land v.flags flagLoopback ≠ 0
    · simpa [hlb]
    · rw [if_neg hlb, if_neg hlb]
      cases v.addrs with
      | error e => rfl
      | ok addrs =>
        cases hscan : scanAddrs addrs with
        | none => simp only [hscan]; exact h
        | some ip4 => simp only [hscan]

/-- A prefix of interfaces that all yield nothing is scanned through. -/
theorem scanIfaces_append_of_nothing (xs ys : List Iface)
    (h : ∀ v ∈ xs, ifaceYieldsNothing v = true) :
    scanIfaces (xs ++ ys) = scanIfaces ys := by
  induction xs with
  | nil => simp
  | cons v rest ih =>
    rw [List.cons_append,
      scanIfaces_cons_of_nothing v (rest ++ ys) (h v (List.mem_cons_self v rest))]
    exact ih fun x hx => h x (List.mem_cons_of_mem v hx)

/-- A successful outer scan exhibits an up, non-loopback interface of the
list whose address list is available and scans to the returned value. -/
theorem scanIfaces_success (ifs : List Iface) (str : String)
    (h : scanIfaces ifs = (str, none)) :
    ∃ v ∈ ifs, Nat.land v.flags flagUp ≠ 0 ∧ Nat.land v.flags flagLoopback = 0 ∧
      ∃ addrs, v.addrs = .ok addrs ∧ ∃ ip4, scanAddrs addrs = some ip4 ∧
        str = ip4String ip4 := by
  induction ifs with
  | nil => simp [scanIfaces_nil] at h
  | cons v rest ih =>
    rw [scanIfaces_cons] at h
    by_cases hup : Nat.land v.flags flagUp = 0
    · rw [if_pos hup] at h
      obtain ⟨w, hw, hrest⟩ := ih h
      exact ⟨w, List.mem_cons_of_mem v hw, hrest⟩
    · rw [if_neg hup] at h
      by_cases hlb : Nat.land v.flags flagLoopback ≠ 0
      · rw [if_pos hlb] at h
        obtain ⟨w, hw, hrest⟩ := ih h
        exact ⟨w, List.mem_cons_of_mem v hw, hrest⟩
      · rw [if_neg hlb] at h
        cases haddrs : v.addrs with
        | error e =>
          simp only [haddrs] at h
          exact absurd (Prod.ext_iff.mp h).2 (by simp)
        | ok addrs =>
          simp only [haddrs] at h
          cases hscan : scanAddrs addrs with
          | none =>
            simp only [hscan] at h
            obtain ⟨w, hw, hrest⟩ := ih h
            exact ⟨w, List.mem_cons_of_mem v hw, hrest⟩
          | some ip4 =>
            simp only [hscan] at h
            exact ⟨v, List.mem_cons_self v rest, hup, not_not.mp hlb, addrs, haddrs,
              ip4, hscan, (Prod.ext_iff.mp h).1.symm⟩

/-- Whenever the outer scan produces an error, the string component is
empty. -/
theorem scanIfaces_error_fst (ifs : List Iface) (str : String) (e : GoError)
    (h : scanIfaces ifs = (str, some e)) : str = "" := by
  induction ifs with
  | nil =>
    rw [scanIfaces_nil] at h
    exact (Prod.ext_iff.mp h).1.symm
  | cons v rest ih =>
    rw [scanIfaces_cons] at h
    by_cases hup : Nat.land v.flags flagUp = 0
    · rw [if_pos hup] at h; exact ih h
    · rw [if_neg hup] at h
      by_cases hlb : Nat.land v.flags flagLoopback ≠ 0
      · rw [if_pos hlb] at h; exact ih h
      · rw [if_neg hlb] at h
        cases haddrs : v.addrs with
        | error er =>
          simp only [haddrs] at h
          exact (Prod.ext_iff.mp h).1.symm
        | ok addrs =>
          simp only [haddrs] at h
          cases hscan : scanAddrs addrs with
          | none => simp only [hscan] at h; exact ih h
          | some ip4 =>
            simp only [hscan] at h
            exact absurd (Prod.ext_iff.mp h).2 (by simp)

/-- A list of length four is a four-element literal. -/
theorem list_length_four {α : Type} (l : List α) (h : l.length = 4) :
    ∃ b0 b1 b2 b3 : α, l = [b0, b1, b2, b3] := by
  cases l with
  | nil => simp at h
  | cons b0 l =>
    cases l with
    | nil => simp at h
    | cons b1 l =>
      cases l with
      | nil => simp at h
      | cons b2 l =>
        cases l with
        | nil => simp at h
        | cons b3 l =>
          cases l with
          | nil => exact ⟨b0, b1, b2, b3, rfl⟩
          | cons b4 l => simp at h

/-- Two addresses with the same extracted IP start the inner scan the same
way. -/
theorem scanAddrs_congr_head (a₁ a₂ : NetAddr) (l : List NetAddr)
    (h : a₁.extractIP = a₂.extractIP) :
    scanAddrs (a₁ :: l) = scanAddrs (a₂ :: l) := by
  rw [scanAddrs_cons, scanAddrs_cons, h]

/-- Replacing the address list of one interface by a list with the same
inner-scan result leaves the outer scan unchanged. -/
theorem scanIfaces_replace_addrs (is₁ is₂ : List Iface) (nm : String) (fl : Nat)
    (as₁ as₂ : List NetAddr) (h : scanAddrs as₁ = scanAddrs as₂) :
    scanIfaces (is₁ ++ ⟨nm, fl, .ok as₁⟩ :: is₂)
      = scanIfaces (is₁ ++ ⟨nm, fl, .ok as₂⟩ :: is₂) := by
  induction is₁ with
  | nil =>
    simp only [List.nil_append]
    rw [scanIfaces_cons, scanIfaces_cons]
    by_cases hup : Nat.land fl flagUp = 0
    · rw [if_pos hup, if_pos hup]
    · rw [if_neg hup, if_neg hup]
      by_cases hlb : Nat.land fl flagLoopback ≠ 0
      · rw [if_pos hlb, if_pos hlb]
      · rw [if_neg hlb, if_neg hlb]
        simp only [h]
  | cons w rest ih =>
    rw [List.cons_append, List.cons_append]
    exact scanIfaces_cons_congr w _ _ ih

/-! ### The claims -/

/-- C1: Get returns the dotted-decimal string of the first address — in
enumeration order over interfaces, then over addresses within the
interface — that passes all filters (interface up, interface not loopback,
extracted IP non-nil and not loopback, 4-byte form exists). Returning it
terminates both loops at once: the interfaces after the match and the
addresses after the match are universally quantified, so the result does
not depend on them and no later interface or address is consulted. -/
theorem get_first_match
    (pre : List Iface) (v : Iface) (post : List Iface)
    (as₁ : List NetAddr) (a : NetAddr) (as₂ : List NetAddr) (ip ip4 : IP)
    (hpre : ∀ w ∈ pre, ifaceYieldsNothing w = true)
    (hup : Nat.land v.flags flagUp ≠ 0)
    (hlb : Nat.land v.flags flagLoopback = 0)
    (haddrs : v.addrs = .ok (as₁ ++ a :: as₂))
    (has₁ : ∀ b ∈ as₁, addrQualifies b = false)
    (hip : a.extractIP = some ip)
    (hnl : isLoopback ip = false)
    (h4 : to4 ip = some ip4) :
    Get ⟨.ok (pre ++ v :: post)⟩ = (ip4String ip4, none) := by
  simp only [Get]
  rw [scanIfaces_append_of_nothing pre (v :: post) hpre, scanIfaces_cons,
    if_neg hup, if_neg (not_not_intro hlb)]
  have hscan : scanAddrs (as₁ ++ a :: as₂) = some ip4 := by
    rw [scanAddrs_append_of_none as₁ (a :: as₂) (scanAddrs_eq_none_of_all as₁ has₁),
      scanAddrs_cons]
    simp [hip, hnl, h4]
  simp only [haddrs, hscan]

/-- Witness for C1: with a loopback interface first, the first qualifying
address of the first qualifying interface is returned, and the later
address, and a later interface whose address query would even fail, are
never consulted. -/
theorem get_first_match_witness :
    Get ⟨.ok ([⟨"lo", 5, .ok [.ipnet (some [127, 0, 0, 1]) [255, 0, 0, 0]]⟩] ++
        ⟨"eth0", 1, .ok ([.ipaddr none "zone0"] ++
          .ipnet (some [10, 0, 0, 5]) [255, 255, 255, 0] ::
          [.ipaddr (some [10, 0, 0, 6]) "zone6"])⟩ ::
        [⟨"eth1", 1, .error (.os 7 "unreached")⟩])⟩
      = (ip4String [10, 0, 0, 5], none) :=
  get_first_match _ _ _ _ _ _ _ _ (by decide) (by decide) (by decide) rfl
    (by decide) rfl rfl rfl

/-- C2: an interface whose up flag is unset, or whose loopback flag is set,
is skipped entirely: deleting it from the enumerated list (address list,
errors and all) leaves the result of Get unchanged, so no address of such
an interface is ever the returned value. -/
theorem get_skips_filtered_iface (xs ys : List Iface) (v : Iface)
    (h : Nat.land v.flags flagUp = 0 ∨ Nat.land v.flags flagLoopback ≠ 0) :
    Get ⟨.ok (xs ++ v :: ys)⟩ = Get ⟨.ok (xs ++ ys)⟩ := by
  unfold Get
  induction xs with
  | nil =>
    simp only [List.nil_append]
    rw [scanIfaces_cons]
    by_cases hup : Nat.land v.flags flagUp = 0
    · rw [if_pos hup]
    · rw [if_neg hup]
      rcases h with h | h
      · exact absurd h hup
      · rw [if_pos h]
  | cons x rest ih =>
    rw [List.cons_append, List.cons_append]
    exact scanIfaces_cons_congr x _ _ ih

/-- Witness for C2: a down interface holding a perfectly good IPv4 address
contributes nothing — the state with it and the state without it give the
same result. -/
theorem get_skips_filtered_iface_witness :
    Get ⟨.ok ([⟨"eth0", 1, .ok []⟩] ++
        ⟨"down0", 0, .ok [.ipnet (some [10, 0, 0, 9]) [255, 0, 0, 0]]⟩ ::
        [⟨"eth1", 1, .ok [.ipnet (some [10, 0, 0, 8]) [255, 0, 0, 0]]⟩])⟩
      = Get ⟨.ok ([⟨"eth0", 1, .ok []⟩] ++
        [⟨"eth1", 1, .ok [.ipnet (some [10, 0, 0, 8]) [255, 0, 0, 0]]⟩])⟩ :=
  get_skips_filtered_iface _ _ _ (Or.inl (by decide))

/-- C3: an address whose extracted IP is loopback-classified, or has no
4-byte form (the nil IP included), is skipped and iteration continues:
deleting it from the address list of its interface leaves the result of
Get unchanged, whatever the flags of that interface are. -/
theorem get_skips_filtered_addr (is₁ is₂ : List Iface) (nm : String) (fl : Nat)
    (xs ys : List NetAddr) (a : NetAddr)
    (h : a.extractIP = none ∨
      ∃ ip, a.extractIP = some ip ∧ (isLoopback ip = true ∨ to4 ip = none)) :
    Get ⟨.ok (is₁ ++ ⟨nm, fl, .ok (xs ++ a :: ys)⟩ :: is₂)⟩
      = Get ⟨.ok (is₁ ++ ⟨nm, fl, .ok (xs ++ ys)⟩ :: is₂)⟩ := by
  have hskip : addrQualifies a = false := by
    unfold addrQualifies
    rcases h with h | ⟨ip, hip, hcase⟩
    · rw [h]
    · rw [hip]
      rcases hcase with hl | h4
      · simp [hl]
      · simp [h4]
  have haddr : scanAddrs (xs ++ a :: ys) = scanAddrs (xs ++ ys) := by
    induction xs with
    | nil => exact scanAddrs_cons_of_skip a ys hskip
    | cons b rest ih =>
      rw [List.cons_append, List.cons_append]
      exact scanAddrs_cons_congr b _ _ ih
  unfold Get
  exact scanIfaces_replace_addrs is₁ is₂ nm fl _ _ haddr

/-- Witness for C3: a loopback address sitting on an up, non-loopback
interface is passed over — removing it changes nothing. -/
theorem get_skips_filtered_addr_witness :
    Get ⟨.ok ([] ++ (⟨"eth0", 1, .ok ([] ++
        .ipaddr (some [127, 0, 0, 1]) "zlo" ::
        [.ipnet (some [192, 168, 1, 2]) [255, 255, 255, 0]])⟩ : Iface) :: [])⟩
      = Get ⟨.ok ([] ++ (⟨"eth0", 1, .ok ([] ++
        [.ipnet (some [192, 168, 1, 2]) [255, 255, 255, 0]])⟩ : Iface) :: [])⟩ :=
  get_skips_filtered_addr _ _ _ _ _ _ _
    (Or.inr ⟨[127, 0, 0, 1], rfl, Or.inl (by decide)⟩)

/-- C4: whenever Get succeeds, the returned string is the dotted-decimal
form — the decimal values of four bytes separated by periods — of a 4-byte
narrowing of an IP extracted from an address assigned to some up,
non-loopback interface of the enumerated input. -/
theorem get_success_from_eligible_iface (s : NetState) (str : String)
    (h : Get s = (str, none)) :
    ∃ ifs, s.interfaces = .ok ifs ∧
      ∃ v ∈ ifs, Nat.land v.flags flagUp ≠ 0 ∧ Nat.land v.flags flagLoopback = 0 ∧
        ∃ addrs, v.addrs = .ok addrs ∧
          ∃ a ∈ addrs, ∃ ip ip4, a.extractIP = some ip ∧ to4 ip = some ip4 ∧
            str = ip4String ip4 ∧
            ∃ b0 b1 b2 b3 : Byte, ip4 = [b0, b1, b2, b3] ∧
              str = toString b0.val ++ "." ++ toString b1.val ++ "." ++
                toString b2.val ++ "." ++ toString b3.val := by
  unfold Get at h
  cases hs : s.interfaces with
  | error e =>
    simp only [hs] at h
    exact absurd (Prod.ext_iff.mp h).2 (by simp)
  | ok ifs =>
    simp only [hs] at h
    obtain ⟨v, hv, hup, hlb, addrs, haddrs, ip4, hscan, hstr⟩ :=
      scanIfaces_success ifs str h
    obtain ⟨a, ha, ip, hext, hnl, h4⟩ := scanAddrs_some_exists addrs ip4 hscan
    obtain ⟨b0, b1, b2, b3, hip4⟩ := list_length_four ip4 (to4_length ip ip4 h4)
    exact ⟨ifs, rfl, v, hv, hup, hlb, addrs, haddrs, a, ha, ip, ip4, hext, h4, hstr,
      b0, b1, b2, b3, hip4, by rw [hstr, hip4]; rfl⟩

/-- Witness for C4: the success on a one-interface state exhibits its own
interface, address and octets. -/
theorem get_success_from_eligible_iface_witness :
    ∃ ifs, (Except.ok [(⟨"eth0", 1,
        .ok [.ipnet (some [192, 168, 1, 2]) [255, 255, 255, 0]]⟩ : Iface)]
        : Except GoError (List Iface)) = .ok ifs ∧
      ∃ v ∈ ifs, Nat.land v.flags flagUp ≠ 0 ∧ Nat.land v.flags flagLoopback = 0 ∧
        ∃ addrs, v.addrs = .ok addrs ∧
          ∃ a ∈ addrs, ∃ ip ip4, a.extractIP = some ip ∧ to4 ip = some ip4 ∧
            "192.168.1.2" = ip4String ip4 ∧
            ∃ b0 b1 b2 b3 : Byte, ip4 = [b0, b1, b2, b3] ∧
              "192.168.1.2" = toString b0.val ++ "." ++ toString b1.val ++ "." ++
                toString b2.val ++ "." ++ toString b3.val :=
  get_success_from_eligible_iface
    ⟨.ok [⟨"eth0", 1, .ok [.ipnet (some [192, 168, 1, 2]) [255, 255, 255, 0]]⟩]⟩
    "192.168.1.2" (by decide)

/-- C5: when enumeration succeeds but every interface is down, loopback, or
carries an available address list in which every address is filtered out
(nil, loopback, or without 4-byte form) — the empty interface list
included — Get fails with exactly the fmt.Errorf error carrying the fixed
message, an error distinct from every OS-layer error. -/
theorem get_exhaustion_error (ifs : List Iface)
    (h : ∀ v ∈ ifs, Nat.land v.flags flagUp = 0 ∨ Nat.land v.flags flagLoopback ≠ 0 ∨
      ∃ addrs, v.addrs = .ok addrs ∧ ∀ a ∈ addrs, addrQualifies a = false) :
    Get ⟨.ok ifs⟩ = ("", some (GoError.errorf "not connected to the network")) ∧
      ∀ id msg, GoError.errorf "not connected to the network" ≠ GoError.os id msg := by
  have hall : ∀ v ∈ ifs, ifaceYieldsNothing v = true := by
    intro v hv
    unfold ifaceYieldsNothing ifaceEligible
    rcases h v hv with hup | hlb | ⟨addrs, haddrs, hq⟩
    · simp [hup]
    · simp [hlb]
    · have hA : addrs.all (fun a => !addrQualifies a) = true := by
        rw [List.all_eq_true]
        intro a ha
        rw [hq a ha]
        rfl
      simp [haddrs, hA]
  constructor
  · simp only [Get]
    have hCap := scanIfaces_append_of_nothing ifs [] hall
    rw [List.append_nil] at hCap
    rw [hCap]
    rfl
  · intro id msg hEq
    exact GoError.noConfusion hEq

/-- Witness for C5: a down interface, a loopback interface, an interface
with an IPv6-only address, an interface with a nil-IP address and an
interface with no addresses at all exhaust into the fixed error. -/
theorem get_exhaustion_error_witness :
    Get ⟨.ok [⟨"down0", 0, .ok [.ipnet (some [10, 0, 0, 1]) [255, 0, 0, 0]]⟩,
        ⟨"lo", 5, .ok [.ipnet (some [127, 0, 0, 1]) [255, 0, 0, 0]]⟩,
        ⟨"six", 1, .ok [.ipaddr (some [254, 128, 0, 0, 0, 0, 0, 0,
          0, 0, 0, 0, 0, 0, 0, 1]) "zone6"]⟩,
        ⟨"nil0", 1, .ok [.ipnet none [255, 0, 0, 0]]⟩,
        ⟨"empty", 1, .ok []⟩]⟩
      = ("", some (GoError.errorf "not connected to the network")) ∧
      ∀ id msg, GoError.errorf "not connected to the network" ≠ GoError.os id msg :=
  get_exhaustion_error _ (by
    intro v hv
    simp only [List.mem_cons, List.not_mem_nil, or_false] at hv
    rcases hv with rfl | rfl | rfl | rfl | rfl
    · exact Or.inl (by decide)
    · exact Or.inr (Or.inl (by decide))
    · exact Or.inr (Or.inr ⟨_, rfl, by decide⟩)
    · exact Or.inr (Or.inr ⟨_, rfl, by decide⟩)
    · exact Or.inr (Or.inr ⟨[], rfl, by decide⟩))

/-- C6: when the OS interface-list retrieval fails, Get returns immediately
with that very error — not substituted, not wrapped — and the empty
string; no interface is available to be examined. -/
theorem get_propagates_interfaces_error (e : GoError) :
    Get ⟨.error e⟩ = ("", some e) := rfl

/-- C7: when the address query of a reached up, non-loopback interface
fails, Get aborts the whole query with exactly that error: the interfaces
after it are universally quantified, so the result does not depend on them
and no later interface is examined — the first error wins. -/
theorem get_aborts_on_addrs_error (pre : List Iface) (v : Iface)
    (post : List Iface) (e : GoError)
    (hpre : ∀ w ∈ pre, ifaceYieldsNothing w = true)
    (hup : Nat.land v.flags flagUp ≠ 0)
    (hlb : Nat.land v.flags flagLoopback = 0)
    (herr : v.addrs = .error e) :
    Get ⟨.ok (pre ++ v :: post)⟩ = ("", some e) := by
  simp only [Get]
  rw [scanIfaces_append_of_nothing pre (v :: post) hpre, scanIfaces_cons,
    if_neg hup, if_neg (not_not_intro hlb)]
  simp only [herr]

/-- Witness for C7: the failing address query of the second interface
aborts the call even though the third interface would qualify. -/
theorem get_aborts_on_addrs_error_witness :
    Get ⟨.ok ([⟨"down0", 0, .ok []⟩] ++
        ⟨"eth0", 1, .error (.os 3 "device busy")⟩ ::
        [⟨"eth1", 1, .ok [.ipnet (some [10, 0, 0, 8]) [255, 0, 0, 0]]⟩])⟩
      = ("", some (.os 3 "device busy")) :=
  get_aborts_on_addrs_error _ _ _ _ (by decide) (by decide) (by decide) rfl

/-- C8: the network-prefixed representation and the bare representation are
treated uniformly: each gives up its IP field through the one extraction
step of the type switch, and swapping one representation for the other —
same IP, any mask, any zone — anywhere in an address list leaves the
result of Get unchanged. -/
theorem get_uniform_addr_representation (is₁ is₂ : List Iface) (nm : String)
    (fl : Nat) (xs ys : List NetAddr) (ip : Option IP) (mask : List Byte)
    (zone : String) :
    NetAddr.extractIP (.ipnet ip mask) = ip ∧
    NetAddr.extractIP (.ipaddr ip zone) = ip ∧
    Get ⟨.ok (is₁ ++ ⟨nm, fl, .ok (xs ++ .ipnet ip mask :: ys)⟩ :: is₂)⟩
      = Get ⟨.ok (is₁ ++ ⟨nm, fl, .ok (xs ++ .ipaddr ip zone :: ys)⟩ :: is₂)⟩ := by
  refine ⟨rfl, rfl, ?_⟩
  have haddr : scanAddrs (xs ++ .ipnet ip mask :: ys)
      = scanAddrs (xs ++ .ipaddr ip zone :: ys) := by
    induction xs with
    | nil => exact scanAddrs_congr_head _ _ ys rfl
    | cons b rest ih =>
      rw [List.cons_append, List.cons_append]
      exact scanAddrs_cons_congr b _ _ ih
  simp only [Get]
  exact scanIfaces_replace_addrs is₁ is₂ nm fl _ _ haddr

/-- C9: Get is deterministic — two runs over the same fixed input state
produce the same (string, error) pair. -/
theorem get_deterministic (s : NetState) (r₁ r₂ : String × Option GoError)
    (h₁ : Get s = r₁) (h₂ : Get s = r₂) : r₁ = r₂ := by
  rw [← h₁, ← h₂]

/-- Witness for C9: two evaluations on a one-interface state agree. -/
theorem get_deterministic_witness :
    (("192.168.1.2", none) : String × Option GoError) = ("192.168.1.2", none) :=
  get_deterministic
    ⟨.ok [⟨"eth0", 1, .ok [.ipnet (some [192, 168, 1, 2]) [255, 255, 255, 0]]⟩]⟩
    _ _ (by decide) (by decide)

/-- C10: whenever Get returns an error — enumeration failure, address-query
failure, or exhaustion — the string component of the pair is the empty
string; no partial address accompanies an error. -/
theorem get_error_empty_string (s : NetState) (str : String) (e : GoError)
    (h : Get s = (str, some e)) : str = "" := by
  unfold Get at h
  cases hs : s.interfaces with
  | error er =>
    simp only [hs] at h
    exact (Prod.ext_iff.mp h).1.symm
  | ok ifs =>
    simp only [hs] at h
    exact scanIfaces_error_fst ifs str e h

/-- Witness for C10: the exhaustion failure on an empty interface list
carries the empty string. -/
theorem get_error_empty_string_witness : ("" : String) = "" :=
  get_error_empty_string ⟨.ok []⟩ "" noAddressFoundError (by decide)

end Localaddr
